import Mathlib

namespace TokenCacheAware

/-- Worker reference as observed by the policy: stable URL identity, current
queue load, health flag (src/sgl-router/src/policies/token_cache_aware.rs,
`Arc<dyn Worker>` accessors `url()`, `load()`, `is_healthy()`). -/
structure Worker where
  url : String
  load : Nat
  healthy : Bool
deriving DecidableEq, Repr

/-- Default worker used for out-of-range list indexing (never reached on the
indices the policy produces, which are always in bounds). -/
def wdefault : Worker := ⟨"", 0, false⟩

/-- `CacheAwareConfig` (token_cache_aware.rs field `config`); float fields are
modelled as rationals. -/
structure CacheAwareConfig where
  cache_threshold : ℚ
  balance_abs_threshold : Nat
  balance_rel_threshold : ℚ
  eviction_interval_secs : Nat
  max_tree_size : Nat
  enable_cache_sync : Bool
  sync_interval_secs : Nat
deriving DecidableEq, Repr

/-- Outcome of one HTTP round trip to the Nexuts resolver, as observed by
`call_nexuts_api` (token_cache_aware.rs lines 93-120): the transport can fail,
the status can be non-success, the body can fail to parse, or a parsed
`NexutsResponse` with its `worker_ids` list arrives. -/
inductive NexutsOutcome where
  | transportFailure
  | badStatus
  | parseFailure
  | ok (worker_ids : List String)
deriving DecidableEq, Repr

/-- One `RouterMetrics` call made by the policy (metrics sink is purely
observational). -/
inductive MetricEvent where
  | loadBalancingEvent
  | setLoadRange (maxLoad minLoad : Nat)
  | processedRequest (url : String)
  | policyDecision (policy url : String)
  | cacheHit
deriving DecidableEq, Repr

/-- Result of one `select_worker` invocation: the returned index, the indices
whose `increment_processed` was called, and the metric events recorded, in
order. -/
structure SelectOutcome where
  result : Option Nat
  incremented : List Nat
  events : List MetricEvent
deriving DecidableEq, Repr

/-- External collaborators of one invocation: the injected tokenizer
(`encode`, fallible, hence `Option`), the Nexuts resolver round trip as a
function of the sent `token_ids`, and the randomness consumed by
`rng.random_range` (an arbitrary seed; the drawn index is `rng % len`). -/
structure Env where
  tokenize : String → Option (List Nat)
  nexuts : List Nat → NexutsOutcome
  rng : Nat

/-- Modelled from the spec: `get_healthy_worker_indices` is declared in the
policies module (`super::get_healthy_worker_indices`), whose source is not
part of this repository slice. Spec §4.3 step 1: "compute the set of healthy
worker indices", in stable iteration order. -/
def get_healthy_worker_indices (workers : List Worker) : List Nat :=
  (List.range workers.length).filter (fun i => (workers.getD i wdefault).healthy)

/-- Rust `Iterator::min_by_key` over the list: the first element attaining the
minimal key (ties keep the earliest element), `none` on an empty list. -/
def min_by_key (key : Nat → Nat) : List Nat → Option Nat
  | [] => none
  | x :: xs =>
    match min_by_key key xs with
    | none => some x
    | some r => some (if key x ≤ key r then x else r)

/-- `TokenCacheAwarePolicy::call_nexuts_api` (lines 93-120) as a function of
the round-trip outcome: transport failure, non-success status, body parse
failure and an empty `worker_ids` list are all errors (`none`); otherwise the
first identity of the ranked list is returned. -/
def call_nexuts_api : NexutsOutcome → Option String
  | .transportFailure => none
  | .badStatus => none
  | .parseFailure => none
  | .ok worker_ids => worker_ids.head?

/-- `TokenCacheAwarePolicy::name` (line 245). -/
def policyName : String := "token_cache_aware"

/-- The healthy index drawn by `rng.random_range(0..healthy_indices.len())`
followed by `healthy_indices[random_idx]`. -/
def randPick (healthy : List Nat) (rng : Nat) : Nat :=
  healthy.getD (rng % healthy.length) 0

/-- A random-fallback return: `Some(healthy_indices[random_idx])` with no
counter increment and no metric recorded. -/
def randomOutcome (healthy : List Nat) (rng : Nat) : SelectOutcome :=
  ⟨some (randPick healthy rng), [], []⟩

/-- Lines 212-241 of `select_worker`: call the Nexuts API with the token ids,
on failure fall back to random; on success look the identity up in the full
worker list (`position` = first index whose `url()` equals it); if found and
healthy, increment and record processed/decision/cache-hit metrics and return
it; otherwise fall back to random. -/
def afterTokens (env : Env) (workers : List Worker) (healthy : List Nat)
    (tok : List Nat) : SelectOutcome :=
  match call_nexuts_api (env.nexuts tok) with
  | none => randomOutcome healthy env.rng
  | some worker_id =>
    match workers.findIdx? (fun w => w.url == worker_id) with
    | some selected_idx =>
      if (workers.getD selected_idx wdefault).healthy then
        ⟨some selected_idx, [selected_idx],
          [MetricEvent.processedRequest worker_id,
           MetricEvent.policyDecision policyName worker_id,
           MetricEvent.cacheHit]⟩
      else randomOutcome healthy env.rng
    | none => randomOutcome healthy env.rng

/-- Lines 185-241 of `select_worker` (balanced-load path): supplied token ids
take precedence unchanged; otherwise empty/missing text falls back to random,
non-empty text is tokenized, with tokenizer failure falling back to random. -/
def affinityBranch (env : Env) (workers : List Worker) (healthy : List Nat)
    (request_text : Option String) (token_ids : Option (List Nat)) : SelectOutcome :=
  match token_ids with
  | some ids => afterTokens env workers healthy ids
  | none =>
    let text := request_text.getD ""
    if text.isEmpty then randomOutcome healthy env.rng
    else
      match env.tokenize text with
      | some ids => afterTokens env workers healthy ids
      | none => randomOutcome healthy env.rng

/-- Lines 163-183 of `select_worker`: record the load-balancing event and the
load range, pick the healthy worker of minimal load (first encountered on
ties), increment it, record processed/decision metrics, return its index. -/
def imbalanceBranch (workers : List Worker) (healthy : List Nat)
    (max_load min_load : Nat) : SelectOutcome :=
  match min_by_key (fun idx => (workers.getD idx wdefault).load) healthy with
  | none => ⟨none, [], [MetricEvent.loadBalancingEvent, MetricEvent.setLoadRange max_load min_load]⟩
  | some min_load_idx =>
    ⟨some min_load_idx, [min_load_idx],
      [MetricEvent.loadBalancingEvent, MetricEvent.setLoadRange max_load min_load,
       MetricEvent.processedRequest ((workers.getD min_load_idx wdefault).url),
       MetricEvent.policyDecision policyName ((workers.getD min_load_idx wdefault).url)]⟩

/-- `loads.iter().max().unwrap_or(&0)` over all workers (line 156). -/
def maxLoadOf (workers : List Worker) : Nat :=
  ((workers.map Worker.load).max?).getD 0

/-- `loads.iter().min().unwrap_or(&0)` over all workers (line 157). -/
def minLoadOf (workers : List Worker) : Nat :=
  ((workers.map Worker.load).min?).getD 0

/-- The imbalance predicate of lines 160-161:
`max_load.saturating_sub(min_load) > balance_abs_threshold && (max_load as f32) > (min_load as f32 * balance_rel_threshold)`. -/
def is_imbalanced (cfg : CacheAwareConfig) (max_load min_load : Nat) : Bool :=
  decide (max_load - min_load > cfg.balance_abs_threshold) &&
    decide ((max_load : ℚ) > (min_load : ℚ) * cfg.balance_rel_threshold)

/-- `TokenCacheAwarePolicy::select_worker` (lines 142-242). -/
def select_worker (env : Env) (cfg : CacheAwareConfig) (workers : List Worker)
    (request_text : Option String) (token_ids : Option (List Nat)) : SelectOutcome :=
  let healthy := get_healthy_worker_indices workers
  if healthy.isEmpty then ⟨none, [], []⟩
  else if is_imbalanced cfg (maxLoadOf workers) (minLoadOf workers) then
    imbalanceBranch workers healthy (maxLoadOf workers) (minLoadOf workers)
  else affinityBranch env workers healthy request_text token_ids

/-- `TokenCacheAwarePolicy::select_worker_pair` (lines 266-288): prefill by
the full `select_worker`, decode purely by minimal load among healthy decode
workers. -/
def select_worker_pair (env : Env) (cfg : CacheAwareConfig)
    (prefill_workers decode_workers : List Worker)
    (request_text : Option String) (token_ids : Option (List Nat)) : Option (Nat × Nat) :=
  match (select_worker env cfg prefill_workers request_text token_ids).result with
  | none => none
  | some prefill_idx =>
    let healthy_decode := get_healthy_worker_indices decode_workers
    if healthy_decode.isEmpty then none
    else
      match min_by_key (fun idx => (decode_workers.getD idx wdefault).load) healthy_decode with
      | none => none
      | some decode_idx => some (prefill_idx, decode_idx)

/-- The tokenizer dependency injected by the factory (only its presence and
identity matter to the factory itself). -/
def Tok : Type := String → Option (List Nat)

/-- `PolicyConfig` variants consumed by the factory (factory.rs lines 17-54);
only the fields the factory reads are carried. -/
inductive PolicyConfig where
  | Random
  | RoundRobin
  | PowerOfTwo (load_check_interval_secs : Nat)
  | CacheAware (cache_threshold : ℚ) (balance_abs_threshold : Nat)
      (balance_rel_threshold : ℚ) (eviction_interval_secs : Nat)
      (max_tree_size : Nat) (enable_cache_sync : Bool) (sync_interval_secs : Nat)
  | TokenCacheAware (cache_threshold : ℚ) (balance_abs_threshold : Nat)
      (balance_rel_threshold : ℚ) (eviction_interval_secs : Nat)
      (max_tree_size : Nat) (nexuts_url : String)

/-- A constructed policy instance, as far as the factory claims observe it:
its variant, and for the hybrid variant its configuration, resolver URL and
injected tokenizer. -/
inductive PolicyInstance where
  | random
  | roundRobin
  | powerOfTwo
  | cacheAware (cfg : CacheAwareConfig)
  | tokenCacheAware (cfg : CacheAwareConfig) (nexuts_url : String) (tokenizer : Tok)

/-- `name()` of each variant: `token_cache_aware` is line 245 of
token_cache_aware.rs; the others are pinned by the factory tests
(factory.rs lines 153-174). -/
def PolicyInstance.name : PolicyInstance → String
  | .random => "random"
  | .roundRobin => "round_robin"
  | .powerOfTwo => "power_of_two"
  | .cacheAware _ => "cache_aware"
  | .tokenCacheAware _ _ _ => "token_cache_aware"

/-- Modelled from the spec: `CacheAwareConfig::default()` lives outside this
repository slice and the spec gives no field values; no claim inspects them,
only the variant constructed from it. -/
def defaultCacheAwareConfig : CacheAwareConfig := ⟨0, 0, 1, 0, 0, false, 0⟩

/-- `TokenCacheAwarePolicy::new` (token_cache_aware.rs lines 45-51): default
config and the fixed URL `http://localhost:8080`. -/
def TokenCacheAwarePolicy.new (tokenizer : Tok) : PolicyInstance :=
  .tokenCacheAware defaultCacheAwareConfig "http://localhost:8080" tokenizer

/-- `PolicyFactory::create_from_config` (factory.rs lines 17-55); the
`panic!` on the TokenCacheAware arm is modelled as `Except.error` carrying
the panic message. -/
def create_from_config : PolicyConfig → Except String PolicyInstance
  | .Random => .ok .random
  | .RoundRobin => .ok .roundRobin
  | .PowerOfTwo _ => .ok .powerOfTwo
  | .CacheAware ct bat brt ei mt ecs sis => .ok (.cacheAware ⟨ct, bat, brt, ei, mt, ecs, sis⟩)
  | .TokenCacheAware _ _ _ _ _ _ =>
    .error "TokenCacheAware policy requires tokenizer. Use create_from_config_with_tokenizer instead."

/-- `PolicyFactory::create_from_config_with_tokenizer` (factory.rs lines
58-111); the `expect` on a missing tokenizer is modelled as `Except.error`
carrying the expect message; cache-sync fields are forced off for the hybrid
variant (lines 100-101). -/
def create_from_config_with_tokenizer (config : PolicyConfig) (tokenizer : Option Tok) :
    Except String PolicyInstance :=
  match config with
  | .Random => .ok .random
  | .RoundRobin => .ok .roundRobin
  | .PowerOfTwo _ => .ok .powerOfTwo
  | .CacheAware ct bat brt ei mt ecs sis => .ok (.cacheAware ⟨ct, bat, brt, ei, mt, ecs, sis⟩)
  | .TokenCacheAware ct bat brt ei mt nexuts_url =>
    match tokenizer with
    | none => .error "TokenCacheAware policy requires tokenizer"
    | some t => .ok (.tokenCacheAware ⟨ct, bat, brt, ei, mt, false, 0⟩ nexuts_url t)

/-- Rust `str::to_lowercase` on the ASCII policy names: lower each character. -/
def toLowerStr (s : String) : String := ⟨s.data.map Char.toLower⟩

/-- The match of `create_by_name` (factory.rs lines 115-126) on the already
lowercased name. -/
def create_by_name_lowered (n : String) : Option PolicyInstance :=
  if n = "random" then some .random
  else if n = "round_robin" || n = "roundrobin" then some .roundRobin
  else if n = "power_of_two" || n = "poweroftwo" then some .powerOfTwo
  else if n = "cache_aware" || n = "cacheaware" then some (.cacheAware defaultCacheAwareConfig)
  else if n = "token_cache_aware" || n = "tokencacheaware" then none
  else none

/-- `PolicyFactory::create_by_name` (factory.rs lines 114-127). -/
def create_by_name (name : String) : Option PolicyInstance :=
  create_by_name_lowered (toLowerStr name)

/-- The match of `create_by_name_with_tokenizer` (factory.rs lines 134-143)
on the already lowercased name. -/
def create_by_name_with_tokenizer_lowered (n : String) (tokenizer : Tok) :
    Option PolicyInstance :=
  if n = "random" then some .random
  else if n = "round_robin" || n = "roundrobin" then some .roundRobin
  else if n = "power_of_two" || n = "poweroftwo" then some .powerOfTwo
  else if n = "cache_aware" || n = "cacheaware" then some (.cacheAware defaultCacheAwareConfig)
  else if n = "token_cache_aware" || n = "tokencacheaware" then
    some (TokenCacheAwarePolicy.new tokenizer)
  else none

/-- `PolicyFactory::create_by_name_with_tokenizer` (factory.rs lines 130-144). -/
def create_by_name_with_tokenizer (name : String) (tokenizer : Tok) :
    Option PolicyInstance :=
  create_by_name_with_tokenizer_lowered (toLowerStr name) tokenizer

/-- Concrete configuration fixture: `balance_abs_threshold = 10`,
`balance_rel_threshold = 1`. -/
def cfgW : CacheAwareConfig := ⟨0, 10, 1, 0, 0, false, 0⟩

/-- Concrete worker fixtures. -/
def wA : Worker := ⟨"http://a", 5, true⟩

def wB : Worker := ⟨"http://b", 50, true⟩

def wB6 : Worker := ⟨"http://b", 6, true⟩

def wC : Worker := ⟨"http://c", 3, true⟩

def wD : Worker := ⟨"http://d", 2, true⟩

/-- Environment fixture where tokenization and the resolver always fail. -/
def envFail : Env := ⟨fun _ => none, fun _ => .transportFailure, 0⟩

/-- Environment fixture where tokenization succeeds and the resolver ranks
`http://b` first. -/
def envHit : Env := ⟨fun _ => some [7], fun _ => .ok ["http://b", "http://a"], 0⟩

/-! ### Basic lemmas about the embedding -/

lemma mem_healthy_iff {workers : List Worker} {i : Nat} :
    i ∈ get_healthy_worker_indices workers ↔
      i < workers.length ∧ (workers.getD i wdefault).healthy = true := by
  simp [get_healthy_worker_indices, List.mem_filter, List.mem_range]

lemma healthy_pairwise (workers : List Worker) :
    (get_healthy_worker_indices workers).Pairwise (· < ·) :=
  List.Pairwise.filter _ (List.pairwise_lt_range _)

lemma isEmpty_false_of_ne {s : String} (h : s ≠ "") : s.isEmpty = false := by
  cases he : s.isEmpty
  · rfl
  · exact absurd ((String.isEmpty_iff s).mp he) h

lemma min_by_key_eq_none_iff (key : Nat → Nat) (l : List Nat) :
    min_by_key key l = none ↔ l = [] := by
  cases l with
  | nil => simp [min_by_key]
  | cons x xs => cases h : min_by_key key xs <;> simp [min_by_key, h]

lemma min_by_key_mem {key : Nat → Nat} {l : List Nat} {r : Nat}
    (h : min_by_key key l = some r) : r ∈ l := by
  induction l generalizing r with
  | nil => simp [min_by_key] at h
  | cons x xs ih =>
    cases hx : min_by_key key xs with
    | none =>
      simp [min_by_key, hx] at h
      simp [h.symm]
    | some r' =>
      simp [min_by_key, hx] at h
      by_cases hc : key x ≤ key r'
      · simp [hc] at h
        simp [h.symm]
      · simp [hc] at h
        exact h ▸ List.mem_cons_of_mem x (ih hx)

lemma min_by_key_le {key : Nat → Nat} {l : List Nat} {r : Nat}
    (h : min_by_key key l = some r) : ∀ y ∈ l, key r ≤ key y := by
  induction l generalizing r with
  | nil => simp [min_by_key] at h
  | cons x xs ih =>
    intro y hy
    cases hx : min_by_key key xs with
    | none =>
      have hxs : xs = [] := (min_by_key_eq_none_iff key xs).mp hx
      subst hxs
      simp [min_by_key] at h
      rcases List.mem_singleton.mp hy with rfl
      exact h ▸ Nat.le_refl _
    | some r' =>
      simp [min_by_key, hx] at h
      by_cases hc : key x ≤ key r'
      · simp [hc] at h
        subst h
        rcases List.mem_cons.mp hy with heq | hy'
        · subst heq
          exact Nat.le_refl _
        · exact Nat.le_trans hc (ih hx y hy')
      · simp [hc] at h
        subst h
        rcases List.mem_cons.mp hy with heq | hy'
        · subst heq
          exact Nat.le_of_not_le hc
        · exact ih hx y hy'

lemma min_by_key_first {key : Nat → Nat} {l : List Nat} {r : Nat}
    (hp : l.Pairwise (· < ·)) (h : min_by_key key l = some r) :
    ∀ y ∈ l, key y = key r → r ≤ y := by
  induction l generalizing r with
  | nil => simp [min_by_key] at h
  | cons x xs ih =>
    intro y hy hk
    cases hx : min_by_key key xs with
    | none =>
      have hxs : xs = [] := (min_by_key_eq_none_iff key xs).mp hx
      subst hxs
      simp [min_by_key] at h
      rcases List.mem_singleton.mp hy with rfl
      exact h ▸ Nat.le_refl _
    | some r' =>
      simp [min_by_key, hx] at h
      by_cases hc : key x ≤ key r'
      · simp [hc] at h
        subst h
        rcases List.mem_cons.mp hy with rfl | hy'
        · exact Nat.le_refl _
        · exact Nat.le_of_lt ((List.pairwise_cons.mp hp).1 y hy')
      · simp [hc] at h
        subst h
        rcases List.mem_cons.mp hy with rfl | hy'
        · exact absurd hk (Nat.ne_of_gt (Nat.lt_of_not_le hc))
        · exact ih (List.pairwise_cons.mp hp).2 hx y hy' hk

lemma randPick_mem {healthy : List Nat} (h : healthy ≠ []) (rng : Nat) :
    randPick healthy rng ∈ healthy := by
  have hlen : 0 < healthy.length := List.length_pos.mpr h
  have hlt : rng % healthy.length < healthy.length := Nat.mod_lt _ hlen
  rw [randPick, List.getD_eq_getElem _ _ hlt]
  exact List.getElem_mem hlt

lemma is_imbalanced_iff (cfg : CacheAwareConfig) (a b : Nat) :
    is_imbalanced cfg a b = true ↔
      (a - b > cfg.balance_abs_threshold ∧
        (a : ℚ) > (b : ℚ) * cfg.balance_rel_threshold) := by
  simp [is_imbalanced]

/-! ### Branch shape lemmas for `select_worker` -/

lemma select_worker_shape_empty (env : Env) (cfg : CacheAwareConfig)
    (workers : List Worker) (rt : Option String) (ti : Option (List Nat))
    (h : get_healthy_worker_indices workers = []) :
    select_worker env cfg workers rt ti = ⟨none, [], []⟩ := by
  simp [select_worker, h]

lemma select_worker_shape_imb (env : Env) (cfg : CacheAwareConfig)
    (workers : List Worker) (rt : Option String) (ti : Option (List Nat))
    (h1 : get_healthy_worker_indices workers ≠ [])
    (h2 : is_imbalanced cfg (maxLoadOf workers) (minLoadOf workers) = true) :
    select_worker env cfg workers rt ti =
      imbalanceBranch workers (get_healthy_worker_indices workers)
        (maxLoadOf workers) (minLoadOf workers) := by
  have hF : (get_healthy_worker_indices workers).isEmpty = false := by
    simpa [List.isEmpty_iff] using h1
  simp [select_worker, hF, h2]

lemma select_worker_shape_bal (env : Env) (cfg : CacheAwareConfig)
    (workers : List Worker) (rt : Option String) (ti : Option (List Nat))
    (h1 : get_healthy_worker_indices workers ≠ [])
    (h2 : is_imbalanced cfg (maxLoadOf workers) (minLoadOf workers) = false) :
    select_worker env cfg workers rt ti =
      affinityBranch env workers (get_healthy_worker_indices workers) rt ti := by
  have hF : (get_healthy_worker_indices workers).isEmpty = false := by
    simpa [List.isEmpty_iff] using h1
  simp [select_worker, hF, h2]

lemma affinityBranch_some_ids (env : Env) (workers : List Worker)
    (healthy : List Nat) (rt : Option String) (ids : List Nat) :
    affinityBranch env workers healthy rt (some ids) =
      afterTokens env workers healthy ids := rfl

lemma affinityBranch_empty_text (env : Env) (workers : List Worker)
    (healthy : List Nat) (rt : Option String)
    (h : rt = none ∨ rt = some "") :
    affinityBranch env workers healthy rt none = randomOutcome healthy env.rng := by
  rcases h with rfl | rfl <;> rfl

lemma affinityBranch_tok_fail (env : Env) (workers : List Worker)
    (healthy : List Nat) (t : String)
    (hne : t.isEmpty = false) (hf : env.tokenize t = none) :
    affinityBranch env workers healthy (some t) none = randomOutcome healthy env.rng := by
  simp [affinityBranch, hne, hf]

lemma affinityBranch_tok_ok (env : Env) (workers : List Worker)
    (healthy : List Nat) (t : String) (ids : List Nat)
    (hne : t.isEmpty = false) (hk : env.tokenize t = some ids) :
    affinityBranch env workers healthy (some t) none =
      afterTokens env workers healthy ids := by
  simp [affinityBranch, hne, hk]

lemma afterTokens_api_fail (env : Env) (workers : List Worker)
    (healthy : List Nat) (tok : List Nat)
    (h : call_nexuts_api (env.nexuts tok) = none) :
    afterTokens env workers healthy tok = randomOutcome healthy env.rng := by
  simp [afterTokens, h]

lemma afterTokens_hit (env : Env) (workers : List Worker)
    (healthy : List Nat) (tok : List Nat) (wid : String) (i : Nat)
    (hw : call_nexuts_api (env.nexuts tok) = some wid)
    (hidx : workers.findIdx? (fun w => w.url == wid) = some i)
    (hh : (workers.getD i wdefault).healthy = true) :
    afterTokens env workers healthy tok =
      ⟨some i, [i],
        [MetricEvent.processedRequest wid,
         MetricEvent.policyDecision policyName wid,
         MetricEvent.cacheHit]⟩ := by
  have hh' : (workers[i]?.getD wdefault).healthy = true := by
    simpa [List.getD_eq_getElem?_getD] using hh
  simp [afterTokens, hw, hidx, hh']

lemma afterTokens_unhealthy (env : Env) (workers : List Worker)
    (healthy : List Nat) (tok : List Nat) (wid : String) (i : Nat)
    (hw : call_nexuts_api (env.nexuts tok) = some wid)
    (hidx : workers.findIdx? (fun w => w.url == wid) = some i)
    (hh : (workers.getD i wdefault).healthy = false) :
    afterTokens env workers healthy tok = randomOutcome healthy env.rng := by
  have hh' : (workers[i]?.getD wdefault).healthy = false := by
    simpa [List.getD_eq_getElem?_getD] using hh
  simp [afterTokens, hw, hidx, hh']

lemma afterTokens_nomatch (env : Env) (workers : List Worker)
    (healthy : List Nat) (tok : List Nat) (wid : String)
    (hw : call_nexuts_api (env.nexuts tok) = some wid)
    (hidx : workers.findIdx? (fun w => w.url == wid) = none) :
    afterTokens env workers healthy tok = randomOutcome healthy env.rng := by
  simp [afterTokens, hw, hidx]

/-! ### Result existence and membership across branches -/

lemma randomOutcome_result_eq (healthy : List Nat) (rng : Nat) :
    (randomOutcome healthy rng).result = some (randPick healthy rng) := rfl

lemma afterTokens_spec (env : Env) (workers : List Worker) (tok : List Nat)
    (hne : get_healthy_worker_indices workers ≠ []) :
    ∃ i, (afterTokens env workers (get_healthy_worker_indices workers) tok).result = some i ∧
      i ∈ get_healthy_worker_indices workers := by
  unfold afterTokens
  split
  · exact ⟨randPick _ env.rng, rfl, randPick_mem hne env.rng⟩
  · next wid heq =>
    split
    · next k hidx =>
      split
      · next hcond =>
        obtain ⟨hk, hp, hmin⟩ := List.findIdx?_eq_some_iff_getElem.mp hidx
        exact ⟨k, rfl, mem_healthy_iff.mpr ⟨hk, hcond⟩⟩
      · exact ⟨randPick _ env.rng, rfl, randPick_mem hne env.rng⟩
    · exact ⟨randPick _ env.rng, rfl, randPick_mem hne env.rng⟩

lemma affinityBranch_spec (env : Env) (workers : List Worker)
    (rt : Option String) (ti : Option (List Nat))
    (hne : get_healthy_worker_indices workers ≠ []) :
    ∃ i, (affinityBranch env workers (get_healthy_worker_indices workers) rt ti).result = some i ∧
      i ∈ get_healthy_worker_indices workers := by
  cases ti with
  | some ids => exact afterTokens_spec env workers ids hne
  | none =>
    cases hT : (rt.getD "").isEmpty with
    | true =>
      have he : affinityBranch env workers (get_healthy_worker_indices workers) rt none =
          randomOutcome (get_healthy_worker_indices workers) env.rng := by
        simp [affinityBranch, hT]
      rw [he]
      exact ⟨_, rfl, randPick_mem hne env.rng⟩
    | false =>
      cases hk : env.tokenize (rt.getD "") with
      | none =>
        have he : affinityBranch env workers (get_healthy_worker_indices workers) rt none =
            randomOutcome (get_healthy_worker_indices workers) env.rng := by
          simp [affinityBranch, hT, hk]
        rw [he]
        exact ⟨_, rfl, randPick_mem hne env.rng⟩
      | some ids =>
        have he : affinityBranch env workers (get_healthy_worker_indices workers) rt none =
            afterTokens env workers (get_healthy_worker_indices workers) ids := by
          simp [affinityBranch, hT, hk]
        rw [he]
        exact afterTokens_spec env workers ids hne

lemma imbalanceBranch_spec (workers : List Worker) (a b : Nat)
    (hne : get_healthy_worker_indices workers ≠ []) :
    ∃ i, min_by_key (fun idx => (workers.getD idx wdefault).load)
          (get_healthy_worker_indices workers) = some i ∧
      (imbalanceBranch workers (get_healthy_worker_indices workers) a b).result = some i ∧
      i ∈ get_healthy_worker_indices workers := by
  cases hmin : min_by_key (fun idx => (workers.getD idx wdefault).load)
      (get_healthy_worker_indices workers) with
  | none => exact absurd ((min_by_key_eq_none_iff _ _).mp hmin) hne
  | some m =>
    refine ⟨m, rfl, ?_, min_by_key_mem hmin⟩
    unfold imbalanceBranch
    rw [hmin]

lemma select_worker_spec (env : Env) (cfg : CacheAwareConfig) (workers : List Worker)
    (rt : Option String) (ti : Option (List Nat))
    (hne : get_healthy_worker_indices workers ≠ []) :
    ∃ i, (select_worker env cfg workers rt ti).result = some i ∧
      i ∈ get_healthy_worker_indices workers := by
  by_cases himb : is_imbalanced cfg (maxLoadOf workers) (minLoadOf workers) = true
  · rw [select_worker_shape_imb env cfg workers rt ti hne himb]
    obtain ⟨i, _, hres, hmem⟩ := imbalanceBranch_spec workers (maxLoadOf workers) (minLoadOf workers) hne
    exact ⟨i, hres, hmem⟩
  · rw [select_worker_shape_bal env cfg workers rt ti hne (Bool.not_eq_true _ ▸ himb)]
    exact affinityBranch_spec env workers rt ti hne

lemma select_worker_result_none_iff (env : Env) (cfg : CacheAwareConfig)
    (workers : List Worker) (rt : Option String) (ti : Option (List Nat)) :
    (select_worker env cfg workers rt ti).result = none ↔
      get_healthy_worker_indices workers = [] := by
  constructor
  · intro h
    by_contra hne
    obtain ⟨i, hres, _⟩ := select_worker_spec env cfg workers rt ti hne
    rw [h] at hres
    exact Option.noConfusion hres
  · intro h
    rw [select_worker_shape_empty env cfg workers rt ti h]

lemma afterTokens_result_mem (env : Env) (workers : List Worker) (tok : List Nat)
    (hne : get_healthy_worker_indices workers ≠ []) :
    ∀ i, (afterTokens env workers (get_healthy_worker_indices workers) tok).result = some i →
      i ∈ get_healthy_worker_indices workers := by
  intro i h
  obtain ⟨j, hres, hmem⟩ := afterTokens_spec env workers tok hne
  rw [hres] at h
  exact (Option.some.injEq _ _ ▸ h) ▸ hmem

lemma select_worker_result_mem (env : Env) (cfg : CacheAwareConfig)
    (workers : List Worker) (rt : Option String) (ti : Option (List Nat)) :
    ∀ i, (select_worker env cfg workers rt ti).result = some i →
      i ∈ get_healthy_worker_indices workers := by
  intro i h
  by_cases hne : get_healthy_worker_indices workers = []
  · rw [select_worker_shape_empty env cfg workers rt ti hne] at h
    exact Option.noConfusion h
  · obtain ⟨j, hres, hmem⟩ := select_worker_spec env cfg workers rt ti hne
    rw [hres] at h
    obtain rfl : j = i := Option.some.inj h
    exact hmem

lemma affinityBranch_none_eq (env : Env) (workers : List Worker)
    (healthy : List Nat) (rt : Option String) :
    affinityBranch env workers healthy rt none =
      if (rt.getD "").isEmpty then randomOutcome healthy env.rng
      else
        match env.tokenize (rt.getD "") with
        | some ids => afterTokens env workers healthy ids
        | none => randomOutcome healthy env.rng := rfl

lemma lbe_not_mem_afterTokens (env : Env) (workers : List Worker)
    (healthy : List Nat) (tok : List Nat) :
    MetricEvent.loadBalancingEvent ∉ (afterTokens env workers healthy tok).events := by
  unfold afterTokens
  split
  · simp [randomOutcome]
  · split
    · split
      · simp
      · simp [randomOutcome]
    · simp [randomOutcome]

lemma lbe_not_mem_affinity (env : Env) (workers : List Worker)
    (healthy : List Nat) (rt : Option String) (ti : Option (List Nat)) :
    MetricEvent.loadBalancingEvent ∉ (affinityBranch env workers healthy rt ti).events := by
  cases ti with
  | some ids => exact lbe_not_mem_afterTokens env workers healthy ids
  | none =>
    rw [affinityBranch_none_eq]
    split
    · simp [randomOutcome]
    · split
      · exact lbe_not_mem_afterTokens env workers healthy _
      · simp [randomOutcome]

/-! ### Claim theorems -/

/-- C1: for every worker sequence and request context,
`TokenCacheAwarePolicy::select_worker` never returns an index for an unhealthy
worker or an index outside the bounds of the input sequence, and it returns
nothing if and only if the set of healthy worker indices is empty (in
particular the total function of the embedding returns `none`, not a panic,
on an empty or all-unhealthy input). -/
theorem C1_select_worker_safety (env : Env) (cfg : CacheAwareConfig)
    (workers : List Worker) (rt : Option String) (ti : Option (List Nat)) :
    (∀ i, (select_worker env cfg workers rt ti).result = some i →
        i < workers.length ∧ (workers.getD i wdefault).healthy = true) ∧
    ((select_worker env cfg workers rt ti).result = none ↔
        get_healthy_worker_indices workers = []) := by
  constructor
  · intro i h
    exact mem_healthy_iff.mp (select_worker_result_mem env cfg workers rt ti i h)
  · exact select_worker_result_none_iff env cfg workers rt ti

/-- C2: whenever the healthy set is non-empty (so the imbalance check is
reached), `select_worker` enters imbalance mode — observable as the recorded
load-balancing event — if and only if both
`max_load - min_load > balance_abs_threshold` and
`max_load > min_load * balance_rel_threshold` hold, with `max_load` and
`min_load` computed over the loads of all workers, healthy and unhealthy
alike; neither condition alone triggers it. -/
theorem C2_imbalance_mode_iff (env : Env) (cfg : CacheAwareConfig)
    (workers : List Worker) (rt : Option String) (ti : Option (List Nat))
    (hne : get_healthy_worker_indices workers ≠ []) :
    MetricEvent.loadBalancingEvent ∈ (select_worker env cfg workers rt ti).events ↔
      (maxLoadOf workers - minLoadOf workers > cfg.balance_abs_threshold ∧
        ((maxLoadOf workers : ℚ) >
          (minLoadOf workers : ℚ) * cfg.balance_rel_threshold)) := by
  rw [← is_imbalanced_iff]
  constructor
  · intro hmem
    by_contra hF
    have hF' : is_imbalanced cfg (maxLoadOf workers) (minLoadOf workers) = false := by
      cases hb : is_imbalanced cfg (maxLoadOf workers) (minLoadOf workers)
      · rfl
      · exact absurd hb hF
    rw [select_worker_shape_bal env cfg workers rt ti hne hF'] at hmem
    exact absurd hmem (lbe_not_mem_affinity env workers _ rt ti)
  · intro hT
    rw [select_worker_shape_imb env cfg workers rt ti hne hT]
    unfold imbalanceBranch
    split <;> simp

/-- C3: under load imbalance with a non-empty healthy set, `select_worker`
selects the healthy worker with minimal load among the healthy workers (ties
broken by first-encountered iteration order, i.e. the least such index),
increments exactly that worker's processed counter, records the
load-balancing metrics and the policy decision, and returns its index —
independent of the supplied request text, token ids, tokenizer and resolver
(cache affinity is never consulted in this branch). -/
theorem C3_imbalance_branch (env : Env) (cfg : CacheAwareConfig)
    (workers : List Worker) (rt : Option String) (ti : Option (List Nat))
    (hne : get_healthy_worker_indices workers ≠ [])
    (himb : is_imbalanced cfg (maxLoadOf workers) (minLoadOf workers) = true) :
    ∃ i, select_worker env cfg workers rt ti =
        ⟨some i, [i],
          [MetricEvent.loadBalancingEvent,
           MetricEvent.setLoadRange (maxLoadOf workers) (minLoadOf workers),
           MetricEvent.processedRequest ((workers.getD i wdefault).url),
           MetricEvent.policyDecision policyName ((workers.getD i wdefault).url)]⟩ ∧
      i ∈ get_healthy_worker_indices workers ∧
      (∀ j ∈ get_healthy_worker_indices workers,
          (workers.getD i wdefault).load ≤ (workers.getD j wdefault).load) ∧
      (∀ j ∈ get_healthy_worker_indices workers,
          (workers.getD j wdefault).load = (workers.getD i wdefault).load → i ≤ j) ∧
      (∀ env' rt' ti', select_worker env' cfg workers rt' ti' =
          select_worker env cfg workers rt ti) := by
  obtain ⟨i, hmin, hres, hmem⟩ :=
    imbalanceBranch_spec workers (maxLoadOf workers) (minLoadOf workers) hne
  refine ⟨i, ?_, hmem, min_by_key_le hmin,
    min_by_key_first (healthy_pairwise workers) hmin, ?_⟩
  · rw [select_worker_shape_imb env cfg workers rt ti hne himb]
    unfold imbalanceBranch
    rw [hmin]
  · intro env' rt' ti'
    rw [select_worker_shape_imb env' cfg workers rt' ti' hne himb,
      select_worker_shape_imb env cfg workers rt ti hne himb]

/-- C4: in the affinity branch (load balanced, healthy set non-empty),
caller-supplied token ids are used unchanged and the tokenizer is never
consulted; with no token ids and absent or empty request text, or with a
tokenizing failure on non-empty text, `select_worker` degrades to returning a
random healthy worker index — always `some` index, never an error. -/
theorem C4_affinity_degradation (env : Env) (cfg : CacheAwareConfig)
    (workers : List Worker) (rt : Option String)
    (hne : get_healthy_worker_indices workers ≠ [])
    (hbal : is_imbalanced cfg (maxLoadOf workers) (minLoadOf workers) = false) :
    (∀ ids, select_worker env cfg workers rt (some ids) =
        afterTokens env workers (get_healthy_worker_indices workers) ids ∧
      (∀ tkz, select_worker ⟨tkz, env.nexuts, env.rng⟩ cfg workers rt (some ids) =
          select_worker env cfg workers rt (some ids))) ∧
    ((rt = none ∨ rt = some "") →
      select_worker env cfg workers rt none =
        randomOutcome (get_healthy_worker_indices workers) env.rng ∧
      (select_worker env cfg workers rt none).result =
        some (randPick (get_healthy_worker_indices workers) env.rng) ∧
      randPick (get_healthy_worker_indices workers) env.rng ∈
        get_healthy_worker_indices workers) ∧
    (∀ t, rt = some t → t.isEmpty = false → env.tokenize t = none →
      select_worker env cfg workers rt none =
        randomOutcome (get_healthy_worker_indices workers) env.rng ∧
      (select_worker env cfg workers rt none).result =
        some (randPick (get_healthy_worker_indices workers) env.rng) ∧
      randPick (get_healthy_worker_indices workers) env.rng ∈
        get_healthy_worker_indices workers) := by
  refine ⟨?_, ?_, ?_⟩
  · intro ids
    constructor
    · rw [select_worker_shape_bal env cfg workers rt (some ids) hne hbal]
      rfl
    · intro tkz
      rw [select_worker_shape_bal ⟨tkz, env.nexuts, env.rng⟩ cfg workers rt (some ids) hne hbal,
        select_worker_shape_bal env cfg workers rt (some ids) hne hbal]
      rfl
  · intro hrt
    rw [select_worker_shape_bal env cfg workers rt none hne hbal,
      affinityBranch_empty_text env workers _ rt hrt]
    exact ⟨rfl, rfl, randPick_mem hne env.rng⟩
  · intro t hrt hT hf
    subst hrt
    rw [select_worker_shape_bal env cfg workers (some t) none hne hbal,
      affinityBranch_tok_fail env workers _ t hT hf]
    exact ⟨rfl, rfl, randPick_mem hne env.rng⟩

/-- C5: `call_nexuts_api` treats transport failure, non-success status, body
parse failure and an empty `worker_ids` list identically as failure, in which
case the balanced branch of `select_worker` returns the random healthy
fallback; on success only the first identity of the ranked `worker_ids` list
is considered. -/
theorem C5_remote_resolution (env : Env) (cfg : CacheAwareConfig)
    (workers : List Worker) (rt : Option String) (ids : List Nat)
    (hne : get_healthy_worker_indices workers ≠ [])
    (hbal : is_imbalanced cfg (maxLoadOf workers) (minLoadOf workers) = false) :
    (∀ o : NexutsOutcome, call_nexuts_api o = none ↔
        (o = .transportFailure ∨ o = .badStatus ∨ o = .parseFailure ∨ o = .ok [])) ∧
    (∀ first rest, call_nexuts_api (.ok (first :: rest)) = some first) ∧
    (call_nexuts_api (env.nexuts ids) = none →
      select_worker env cfg workers rt (some ids) =
        randomOutcome (get_healthy_worker_indices workers) env.rng ∧
      randPick (get_healthy_worker_indices workers) env.rng ∈
        get_healthy_worker_indices workers) := by
  refine ⟨?_, fun first rest => rfl, ?_⟩
  · intro o
    cases o with
    | transportFailure => simp [call_nexuts_api]
    | badStatus => simp [call_nexuts_api]
    | parseFailure => simp [call_nexuts_api]
    | ok l => cases l <;> simp [call_nexuts_api]
  · intro hfail
    rw [select_worker_shape_bal env cfg workers rt (some ids) hne hbal,
      affinityBranch_some_ids, afterTokens_api_fail env workers _ ids hfail]
    exact ⟨rfl, randPick_mem hne env.rng⟩

/-- C6: the identity returned by the resolver is looked up by identity match
over the full worker list; if the (first) matching worker is healthy,
`select_worker` deterministically returns its index, increments its processed
counter and records a cache-hit; if no worker matches, or the matching worker
is unhealthy, it returns a random healthy index and never the
unhealthy/missing worker. -/
theorem C6_revalidation (env : Env) (cfg : CacheAwareConfig)
    (workers : List Worker) (rt : Option String) (ids : List Nat)
    (wid : String) (rest : List String)
    (hne : get_healthy_worker_indices workers ≠ [])
    (hbal : is_imbalanced cfg (maxLoadOf workers) (minLoadOf workers) = false)
    (hresp : env.nexuts ids = .ok (wid :: rest)) :
    (∀ i, workers.findIdx? (fun w => w.url == wid) = some i →
      (i < workers.length ∧ (workers.getD i wdefault).url = wid) ∧
      ((workers.getD i wdefault).healthy = true →
        select_worker env cfg workers rt (some ids) =
          ⟨some i, [i],
            [MetricEvent.processedRequest wid,
             MetricEvent.policyDecision policyName wid,
             MetricEvent.cacheHit]⟩) ∧
      ((workers.getD i wdefault).healthy = false →
        select_worker env cfg workers rt (some ids) =
          randomOutcome (get_healthy_worker_indices workers) env.rng ∧
        (select_worker env cfg workers rt (some ids)).result ≠ some i)) ∧
    (workers.findIdx? (fun w => w.url == wid) = none →
      select_worker env cfg workers rt (some ids) =
        randomOutcome (get_healthy_worker_indices workers) env.rng) := by
  have hapi : call_nexuts_api (env.nexuts ids) = some wid := by
    rw [hresp]
    rfl
  constructor
  · intro i hidx
    obtain ⟨hk, hp, _⟩ := List.findIdx?_eq_some_iff_getElem.mp hidx
    refine ⟨⟨hk, ?_⟩, ?_, ?_⟩
    · rw [List.getD_eq_getElem _ _ hk]
      exact eq_of_beq hp
    · intro hh
      rw [select_worker_shape_bal env cfg workers rt (some ids) hne hbal,
        affinityBranch_some_ids, afterTokens_hit env workers _ ids wid i hapi hidx hh]
    · intro hh
      have hout : select_worker env cfg workers rt (some ids) =
          randomOutcome (get_healthy_worker_indices workers) env.rng := by
        rw [select_worker_shape_bal env cfg workers rt (some ids) hne hbal,
          affinityBranch_some_ids, afterTokens_unhealthy env workers _ ids wid i hapi hidx hh]
      refine ⟨hout, ?_⟩
      rw [hout, randomOutcome_result_eq]
      intro hcontra
      have hmem : i ∈ get_healthy_worker_indices workers :=
        Option.some.inj hcontra ▸ randPick_mem hne env.rng
      have := (mem_healthy_iff.mp hmem).2
      rw [hh] at this
      exact Bool.noConfusion this
  · intro hidx
    rw [select_worker_shape_bal env cfg workers rt (some ids) hne hbal,
      affinityBranch_some_ids, afterTokens_nomatch env workers _ ids wid hapi hidx]

/-- C7: `select_worker_pair` chooses the prefill index by the full
`select_worker` algorithm on the prefill workers, chooses the decode index
purely as the minimum-load healthy decode worker (first-encountered
tie-break, never cache affinity), and returns nothing if and only if either
the prefill or the decode healthy set is empty. -/
theorem C7_select_worker_pair (env : Env) (cfg : CacheAwareConfig)
    (prefill_workers decode_workers : List Worker)
    (rt : Option String) (ti : Option (List Nat)) :
    (select_worker_pair env cfg prefill_workers decode_workers rt ti = none ↔
      (get_healthy_worker_indices prefill_workers = [] ∨
        get_healthy_worker_indices decode_workers = [])) ∧
    (∀ p d, select_worker_pair env cfg prefill_workers decode_workers rt ti = some (p, d) →
      (select_worker env cfg prefill_workers rt ti).result = some p ∧
      min_by_key (fun idx => (decode_workers.getD idx wdefault).load)
        (get_healthy_worker_indices decode_workers) = some d ∧
      d ∈ get_healthy_worker_indices decode_workers ∧
      (∀ j ∈ get_healthy_worker_indices decode_workers,
          (decode_workers.getD d wdefault).load ≤ (decode_workers.getD j wdefault).load) ∧
      (∀ j ∈ get_healthy_worker_indices decode_workers,
          (decode_workers.getD j wdefault).load = (decode_workers.getD d wdefault).load →
            d ≤ j)) := by
  constructor
  · constructor
    · intro h
      cases hres : (select_worker env cfg prefill_workers rt ti).result with
      | none =>
        exact Or.inl ((select_worker_result_none_iff env cfg prefill_workers rt ti).mp hres)
      | some p =>
        by_cases hd : get_healthy_worker_indices decode_workers = []
        · exact Or.inr hd
        · exfalso
          cases hmin : min_by_key (fun idx => (decode_workers.getD idx wdefault).load)
              (get_healthy_worker_indices decode_workers) with
          | none => exact hd ((min_by_key_eq_none_iff _ _).mp hmin)
          | some d =>
            have hF : (get_healthy_worker_indices decode_workers).isEmpty = false := by
              simpa [List.isEmpty_iff] using hd
            rw [select_worker_pair] at h
            simp only [hres, hF, hmin] at h
            simp at h
    · intro h
      rcases h with hP | hD
      · have hres : (select_worker env cfg prefill_workers rt ti).result = none :=
          (select_worker_result_none_iff env cfg prefill_workers rt ti).mpr hP
        simp [select_worker_pair, hres]
      · cases hres : (select_worker env cfg prefill_workers rt ti).result with
        | none => simp [select_worker_pair, hres]
        | some p =>
          have hT : (get_healthy_worker_indices decode_workers).isEmpty = true := by
            simp [List.isEmpty_iff, hD]
          simp [select_worker_pair, hres, hT]
  · intro p d h
    cases hres : (select_worker env cfg prefill_workers rt ti).result with
    | none => simp [select_worker_pair, hres] at h
    | some p' =>
      by_cases hd : get_healthy_worker_indices decode_workers = []
      · have hT : (get_healthy_worker_indices decode_workers).isEmpty = true := by
          simp [List.isEmpty_iff, hd]
        simp [select_worker_pair, hres, hT] at h
      · cases hmin : min_by_key (fun idx => (decode_workers.getD idx wdefault).load)
            (get_healthy_worker_indices decode_workers) with
        | none => exact absurd ((min_by_key_eq_none_iff _ _).mp hmin) hd
        | some d' =>
          have hF : (get_healthy_worker_indices decode_workers).isEmpty = false := by
            simpa [List.isEmpty_iff] using hd
          rw [select_worker_pair] at h
          simp only [hres, hF, hmin] at h
          simp at h
          obtain ⟨rfl, rfl⟩ := h
          exact ⟨rfl, rfl, min_by_key_mem hmin, min_by_key_le hmin,
            min_by_key_first (healthy_pairwise decode_workers) hmin⟩

/-- C8: `create_from_config` on the TokenCacheAware selector always fails
fatally with the tokenizer panic message; `create_from_config_with_tokenizer`
with a present tokenizer always succeeds and the instance's `name` is
`token_cache_aware` (and fails fatally without one); `create_by_name` on
`token_cache_aware` always returns nothing, while
`create_by_name_with_tokenizer` on the same name always succeeds; name
lookup is case-insensitive (it lowercases the name first, verified over the
documented key set). -/
theorem C8_factory_shapes :
    (∀ ct bat brt ei mt url,
      create_from_config (.TokenCacheAware ct bat brt ei mt url) =
        .error "TokenCacheAware policy requires tokenizer. Use create_from_config_with_tokenizer instead.") ∧
    (∀ ct bat brt ei mt url t, ∃ p,
      create_from_config_with_tokenizer (.TokenCacheAware ct bat brt ei mt url) (some t) =
        .ok p ∧ p.name = "token_cache_aware") ∧
    (∀ ct bat brt ei mt url,
      create_from_config_with_tokenizer (.TokenCacheAware ct bat brt ei mt url) none =
        .error "TokenCacheAware policy requires tokenizer") ∧
    (create_by_name "token_cache_aware" = none ∧
      create_by_name "tokencacheaware" = none ∧
      create_by_name "TokenCacheAware" = none ∧
      create_by_name "TOKEN_CACHE_AWARE" = none) ∧
    (∀ t, ∃ p, create_by_name_with_tokenizer "token_cache_aware" t = some p ∧
      p.name = "token_cache_aware") ∧
    (∀ s, create_by_name s = create_by_name_lowered (toLowerStr s)) ∧
    (create_by_name "RANDOM" = create_by_name "random" ∧
      create_by_name "Round_Robin" = create_by_name "round_robin" ∧
      create_by_name "RoundRobin" = create_by_name "roundrobin" ∧
      create_by_name "Power_Of_Two" = create_by_name "power_of_two" ∧
      create_by_name "PowerOfTwo" = create_by_name "poweroftwo" ∧
      create_by_name "Cache_Aware" = create_by_name "cache_aware" ∧
      create_by_name "CacheAware" = create_by_name "cacheaware" ∧
      create_by_name "Token_Cache_Aware" = create_by_name "token_cache_aware" ∧
      create_by_name "TOKENCACHEAWARE" = create_by_name "tokencacheaware") :=
  ⟨fun _ _ _ _ _ _ => rfl,
   fun ct bat brt ei mt url t =>
     ⟨.tokenCacheAware ⟨ct, bat, brt, ei, mt, false, 0⟩ url t, rfl, rfl⟩,
   fun _ _ _ _ _ _ => rfl,
   ⟨rfl, rfl, rfl, rfl⟩,
   fun t => ⟨TokenCacheAwarePolicy.new t, rfl, rfl⟩,
   fun _ => rfl,
   ⟨rfl, rfl, rfl, rfl, rfl, rfl, rfl, rfl, rfl⟩⟩

/-- C9: supplying a present-but-empty token-id list in the balanced branch
does not trigger the empty-request random fallback; `select_worker` proceeds
to the resolver with the empty token list, and the outcome is then determined
by the resolver's response: failure falls back to random, while a successful
response naming a healthy worker deterministically selects it. -/
theorem C9_empty_token_ids (env : Env) (cfg : CacheAwareConfig)
    (workers : List Worker) (rt : Option String)
    (hne : get_healthy_worker_indices workers ≠ [])
    (hbal : is_imbalanced cfg (maxLoadOf workers) (minLoadOf workers) = false) :
    select_worker env cfg workers rt (some []) =
      afterTokens env workers (get_healthy_worker_indices workers) [] ∧
    (call_nexuts_api (env.nexuts []) = none →
      select_worker env cfg workers rt (some []) =
        randomOutcome (get_healthy_worker_indices workers) env.rng) ∧
    (∀ wid rest i, env.nexuts [] = .ok (wid :: rest) →
      workers.findIdx? (fun w => w.url == wid) = some i →
      (workers.getD i wdefault).healthy = true →
      (select_worker env cfg workers rt (some [])).result = some i) := by
  have hshape : select_worker env cfg workers rt (some []) =
      afterTokens env workers (get_healthy_worker_indices workers) [] := by
    rw [select_worker_shape_bal env cfg workers rt (some []) hne hbal]
    rfl
  refine ⟨hshape, ?_, ?_⟩
  · intro hfail
    rw [hshape, afterTokens_api_fail env workers _ [] hfail]
  · intro wid rest i hresp hidx hh
    have hapi : call_nexuts_api (env.nexuts []) = some wid := by
      rw [hresp]
      rfl
    rw [hshape, afterTokens_hit env workers _ [] wid i hapi hidx hh]

/-- C10: on every random-fallback path of `select_worker` (empty request
context, tokenizer failure, resolver failure, matched worker missing or
unhealthy) no processed counter is incremented and no metric event is
recorded, whereas the imbalance branch and the successful cache-hit path
each increment exactly the chosen worker's counter and record their
metrics. -/
theorem C10_fallback_frame (env : Env) (cfg : CacheAwareConfig)
    (workers : List Worker) (rt : Option String)
    (hne : get_healthy_worker_indices workers ≠ []) :
    (is_imbalanced cfg (maxLoadOf workers) (minLoadOf workers) = false →
      ((rt = none ∨ rt = some "") →
        (select_worker env cfg workers rt none).incremented = [] ∧
        (select_worker env cfg workers rt none).events = []) ∧
      (∀ t, rt = some t → t.isEmpty = false → env.tokenize t = none →
        (select_worker env cfg workers rt none).incremented = [] ∧
        (select_worker env cfg workers rt none).events = []) ∧
      (∀ ids, call_nexuts_api (env.nexuts ids) = none →
        (select_worker env cfg workers rt (some ids)).incremented = [] ∧
        (select_worker env cfg workers rt (some ids)).events = []) ∧
      (∀ ids wid rest, env.nexuts ids = .ok (wid :: rest) →
        (workers.findIdx? (fun w => w.url == wid) = none ∨
          ∃ i, workers.findIdx? (fun w => w.url == wid) = some i ∧
            (workers.getD i wdefault).healthy = false) →
        (select_worker env cfg workers rt (some ids)).incremented = [] ∧
        (select_worker env cfg workers rt (some ids)).events = []) ∧
      (∀ ids wid rest i, env.nexuts ids = .ok (wid :: rest) →
        workers.findIdx? (fun w => w.url == wid) = some i →
        (workers.getD i wdefault).healthy = true →
        (select_worker env cfg workers rt (some ids)).incremented = [i] ∧
        MetricEvent.cacheHit ∈ (select_worker env cfg workers rt (some ids)).events ∧
        MetricEvent.processedRequest wid ∈ (select_worker env cfg workers rt (some ids)).events)) ∧
    (is_imbalanced cfg (maxLoadOf workers) (minLoadOf workers) = true →
      ∃ i, (select_worker env cfg workers rt none).result = some i ∧
        (select_worker env cfg workers rt none).incremented = [i] ∧
        MetricEvent.loadBalancingEvent ∈ (select_worker env cfg workers rt none).events ∧
        MetricEvent.processedRequest ((workers.getD i wdefault).url) ∈
          (select_worker env cfg workers rt none).events) := by
  constructor
  · intro hbal
    refine ⟨?_, ?_, ?_, ?_, ?_⟩
    · intro hrt
      rw [select_worker_shape_bal env cfg workers rt none hne hbal,
        affinityBranch_empty_text env workers _ rt hrt]
      exact ⟨rfl, rfl⟩
    · intro t hrt hT hf
      subst hrt
      rw [select_worker_shape_bal env cfg workers (some t) none hne hbal,
        affinityBranch_tok_fail env workers _ t hT hf]
      exact ⟨rfl, rfl⟩
    · intro ids hfail
      rw [select_worker_shape_bal env cfg workers rt (some ids) hne hbal,
        affinityBranch_some_ids, afterTokens_api_fail env workers _ ids hfail]
      exact ⟨rfl, rfl⟩
    · intro ids wid rest hresp hcase
      have hapi : call_nexuts_api (env.nexuts ids) = some wid := by
        rw [hresp]
        rfl
      rcases hcase with hidx | ⟨i, hidx, hh⟩
      · rw [select_worker_shape_bal env cfg workers rt (some ids) hne hbal,
          affinityBranch_some_ids, afterTokens_nomatch env workers _ ids wid hapi hidx]
        exact ⟨rfl, rfl⟩
      · rw [select_worker_shape_bal env cfg workers rt (some ids) hne hbal,
          affinityBranch_some_ids, afterTokens_unhealthy env workers _ ids wid i hapi hidx hh]
        exact ⟨rfl, rfl⟩
    · intro ids wid rest i hresp hidx hh
      have hapi : call_nexuts_api (env.nexuts ids) = some wid := by
        rw [hresp]
        rfl
      rw [select_worker_shape_bal env cfg workers rt (some ids) hne hbal,
        affinityBranch_some_ids, afterTokens_hit env workers _ ids wid i hapi hidx hh]
      exact ⟨rfl, by simp, by simp⟩
  · intro himb
    obtain ⟨i, hmin, _, _⟩ :=
      imbalanceBranch_spec workers (maxLoadOf workers) (minLoadOf workers) hne
    refine ⟨i, ?_⟩
    rw [select_worker_shape_imb env cfg workers rt none hne himb]
    unfold imbalanceBranch
    rw [hmin]
    exact ⟨rfl, rfl, by simp, by simp⟩

/-! ### Fixture facts used by the witnesses -/

lemma hneW : get_healthy_worker_indices [wA, wB] ≠ [] := by decide

lemma hneW1 : get_healthy_worker_indices [wA] ≠ [] := by decide

lemma hneW2 : get_healthy_worker_indices [wA, wB6] ≠ [] := by decide

lemma hbalW1 : is_imbalanced cfgW (maxLoadOf [wA]) (minLoadOf [wA]) = false := by decide

lemma hbalW2 : is_imbalanced cfgW (maxLoadOf [wA, wB6]) (minLoadOf [wA, wB6]) = false := by
  decide

lemma himbW : is_imbalanced cfgW (maxLoadOf [wA, wB]) (minLoadOf [wA, wB]) = true := by
  rw [is_imbalanced_iff]
  refine ⟨by decide, ?_⟩
  have e3 : cfgW.balance_rel_threshold = 1 := rfl
  have e1 : maxLoadOf [wA, wB] = 50 := by decide
  have e2 : minLoadOf [wA, wB] = 5 := by decide
  rw [e3, mul_one, e1, e2]
  exact Nat.cast_lt.mpr (by decide)

/-! ### Witness theorems -/

/-- Witness for C1 at a concrete input. -/
theorem C1_witness :
    (0 < ([wA] : List Worker).length ∧
      (([wA] : List Worker).getD 0 wdefault).healthy = true) ∧
    ((select_worker envFail cfgW [wA] none none).result = none ↔
      get_healthy_worker_indices [wA] = []) :=
  ⟨(C1_select_worker_safety envFail cfgW [wA] none none).1 0 (by decide),
   (C1_select_worker_safety envFail cfgW [wA] none none).2⟩

/-- Witness for C2 at a concrete imbalanced input. -/
theorem C2_witness :
    MetricEvent.loadBalancingEvent ∈ (select_worker envFail cfgW [wA, wB] none none).events :=
  (C2_imbalance_mode_iff envFail cfgW [wA, wB] none none hneW).mpr
    ((is_imbalanced_iff cfgW (maxLoadOf [wA, wB]) (minLoadOf [wA, wB])).mp himbW)

/-- Witness for C3 at a concrete imbalanced input. -/
theorem C3_witness :
    ∃ i, select_worker envFail cfgW [wA, wB] none none =
        ⟨some i, [i],
          [MetricEvent.loadBalancingEvent,
           MetricEvent.setLoadRange (maxLoadOf [wA, wB]) (minLoadOf [wA, wB]),
           MetricEvent.processedRequest ((([wA, wB] : List Worker).getD i wdefault).url),
           MetricEvent.policyDecision policyName
             ((([wA, wB] : List Worker).getD i wdefault).url)]⟩ ∧
      i ∈ get_healthy_worker_indices [wA, wB] ∧
      (∀ j ∈ get_healthy_worker_indices [wA, wB],
          (([wA, wB] : List Worker).getD i wdefault).load ≤
            (([wA, wB] : List Worker).getD j wdefault).load) ∧
      (∀ j ∈ get_healthy_worker_indices [wA, wB],
          (([wA, wB] : List Worker).getD j wdefault).load =
            (([wA, wB] : List Worker).getD i wdefault).load → i ≤ j) ∧
      (∀ env' rt' ti', select_worker env' cfgW [wA, wB] rt' ti' =
          select_worker envFail cfgW [wA, wB] none none) :=
  C3_imbalance_branch envFail cfgW [wA, wB] none none hneW himbW

/-- Witness for C4: empty context and tokenizer failure both degrade to the
random healthy pick at concrete inputs. -/
theorem C4_witness :
    ((select_worker envFail cfgW [wA] none none).result =
      some (randPick (get_healthy_worker_indices [wA]) envFail.rng)) ∧
    ((select_worker envFail cfgW [wA] (some "x") none).result =
      some (randPick (get_healthy_worker_indices [wA]) envFail.rng)) :=
  ⟨((C4_affinity_degradation envFail cfgW [wA] none hneW1 hbalW1).2.1 (Or.inl rfl)).2.1,
   ((C4_affinity_degradation envFail cfgW [wA] (some "x") hneW1 hbalW1).2.2
      "x" rfl (by decide) rfl).2.1⟩

/-- Witness for C5: a transport failure at a concrete input falls back to the
random healthy pick. -/
theorem C5_witness :
    select_worker envFail cfgW [wA] none (some [1, 2]) =
      randomOutcome (get_healthy_worker_indices [wA]) envFail.rng ∧
    randPick (get_healthy_worker_indices [wA]) envFail.rng ∈
      get_healthy_worker_indices [wA] :=
  (C5_remote_resolution envFail cfgW [wA] none [1, 2] hneW1 hbalW1).2.2 rfl

/-- Witness for C6: a resolver hit on a healthy worker at a concrete input is
returned deterministically with the cache-hit record. -/
theorem C6_witness :
    select_worker envHit cfgW [wA, wB6] none (some [7]) =
      ⟨some 1, [1],
        [MetricEvent.processedRequest "http://b",
         MetricEvent.policyDecision policyName "http://b",
         MetricEvent.cacheHit]⟩ :=
  (((C6_revalidation envHit cfgW [wA, wB6] none [7] "http://b" ["http://a"]
      hneW2 hbalW2 rfl).1 1 (by decide)).2.1 (by decide))

/-- Witness for C7 at a concrete pair input. -/
theorem C7_witness :
    (select_worker envFail cfgW [wA] none none).result = some 0 ∧
    min_by_key (fun idx => (([wC, wD] : List Worker).getD idx wdefault).load)
      (get_healthy_worker_indices [wC, wD]) = some 1 :=
  ⟨((C7_select_worker_pair envFail cfgW [wA] [wC, wD] none none).2 0 1 (by decide)).1,
   ((C7_select_worker_pair envFail cfgW [wA] [wC, wD] none none).2 0 1 (by decide)).2.1⟩

/-- Witness for C9: an empty token-id list reaches the resolver, whose
successful answer picks the matching healthy worker at a concrete input. -/
theorem C9_witness :
    (select_worker envHit cfgW [wA, wB6] none (some [])).result = some 1 :=
  (C9_empty_token_ids envHit cfgW [wA, wB6] none hneW2 hbalW2).2.2
    "http://b" ["http://a"] 1 rfl (by decide) (by decide)

/-- Witness for C10: the empty-context fallback records nothing while the
imbalance branch increments and records, at concrete inputs. -/
theorem C10_witness :
    ((select_worker envFail cfgW [wA] none none).incremented = [] ∧
      (select_worker envFail cfgW [wA] none none).events = []) ∧
    ∃ i, (select_worker envFail cfgW [wA, wB] none none).result = some i ∧
      (select_worker envFail cfgW [wA, wB] none none).incremented = [i] ∧
      MetricEvent.loadBalancingEvent ∈ (select_worker envFail cfgW [wA, wB] none none).events ∧
      MetricEvent.processedRequest ((([wA, wB] : List Worker).getD i wdefault).url) ∈
        (select_worker envFail cfgW [wA, wB] none none).events :=
  ⟨((C10_fallback_frame envFail cfgW [wA] none hneW1).1 hbalW1).1 (Or.inl rfl),
   (C10_fallback_frame envFail cfgW [wA, wB] none hneW).2 himbW⟩

end TokenCacheAware
